import Mathlib

/-!
Shallow embedding of the static-analysis engine of
`src/parse_web/src/App.jsx` (React Code Analyzer):

* `analyzeCode` (App.jsx lines 14-345): the recursive AST walk `traverse`
  with its scope tracking, declaration classification, complexity counters,
  security issues, dependency accumulation and the post-walk finalisation;
* `calculateQualityScore` (lines 347-361);
* the per-project aggregation built in `processFiles` (lines 1086-1149).

Modelling conventions: JavaScript objects indexed by string keys become
association lists preserving insertion order; `Set` becomes an
insertion-ordered duplicate-free list; the mutable `currentFunction`
variable (saved and restored around every subtree, lines 89/102 and
135/148) becomes an explicit `Option String` parameter of the walk; wall
clock time (`performance.now`) is outside the model, so the
`analysisTime` stamp is threaded through as an opaque string input.  The
maintainability index uses `Math.log`; it is modelled over the real
numbers and therefore kept as a derived accessor of a record rather than
a stored field, so that the rest of the record stays computable.
-/

namespace ReactParse

/-- AST node model for the Babel node shapes that `traverse`
(App.jsx lines 58-293) inspects.  Each constructor carries exactly the
child fields that the generic child recursion (lines 284-292) visits, in
source field order; node kinds that the walk only counts or recurses into
are collapsed into `stmtNode` carrying the `node.type` string, mirroring
the `includes(node.type)` dispatch of lines 251-263. -/
inductive JNode where
  | identifier (name : String)
  | stringLiteral (value : String)
  | numericLiteral (value : Int)
  | booleanLiteral (value : Bool)
  | nullLiteral
  | functionDeclaration (id : Option JNode) (children : List JNode)
  | variableDeclarator (id : Option JNode) (init : Option JNode)
  | arrowFunctionExpression (children : List JNode)
  | functionExpression (children : List JNode)
  | arrayPattern (elements : List JNode)
  | jsxElement (opening : Option JNode) (rest : List JNode)
  | jsxOpeningElement (name : Option JNode) (attributes : List JNode)
  | jsxAttribute (name : Option JNode) (value : Option JNode)
  | callExpression (callee : Option JNode) (args : List JNode)
  | importDeclaration (source : Option String) (specifiers : List (Option String)) (rest : List JNode)
  | exportDeclaration (decl : Option JNode) (rest : List JNode)
  | logicalExpression (operator : String) (children : List JNode)
  | stmtNode (type : String) (children : List JNode)

/-- Issue record pushed by the security checks (App.jsx lines 268-281). -/
structure Issue where
  type : String
  message : String
  severity : String
deriving DecidableEq, Repr

/-- Import edge appended at an `ImportDeclaration` (App.jsx lines 229-232). -/
structure ImportEdge where
  source : Option String
  specifiers : List String
deriving DecidableEq, Repr

/-- Dependency edge produced by the post-walk finalisation
(App.jsx lines 306-320).  `fromName`/`toName` stand for the JavaScript
fields `from`/`to`, which are reserved tokens in Lean. -/
structure DepEdge where
  fromName : String
  toName : String
  count : Nat
  fromType : String
  toType : String
deriving DecidableEq, Repr

/-- Map `caller name -> (callee name -> call count)` (the mutable
`functionDependencies` object of App.jsx line 54), as an insertion-ordered
association list. -/
abbrev DepsMap := List (String × List (String × Nat))

/-- Test for `/^[A-Z]/.test(name)` (App.jsx lines 71, 117, 164, 310, 316). -/
def isCapitalized (s : String) : Bool :=
  match s.data with
  | c :: _ => c.isUpper
  | [] => false

/-- Test for `/^(handle|on)[A-Z]/.test(name)` (App.jsx lines 75, 121). -/
def isHandlerShaped (s : String) : Bool :=
  match s.data with
  | 'h' :: 'a' :: 'n' :: 'd' :: 'l' :: 'e' :: c :: _ => c.isUpper
  | 'o' :: 'n' :: c :: _ => c.isUpper
  | _ => false

/-- Character-list core of `strStartsWith`. -/
def charsStart : List Char → List Char → Bool
  | [], _ => true
  | _ :: _, [] => false
  | p :: ps, c :: cs => p == c && charsStart ps cs

/-- JavaScript `s.startsWith(pre)`, computed on the character lists so
that it reduces inside the kernel. -/
def strStartsWith (s pre : String) : Bool :=
  charsStart pre.data s.data

/-- Setter test of App.jsx lines 206-207:
`calleeName.startsWith('set') && calleeName.length > 3 &&
calleeName[3] === calleeName[3].toUpperCase()`.  (JavaScript
`toUpperCase` is the identity on non-letters, as is `Char.toUpper`.) -/
def isSetState (cn : String) : Bool :=
  strStartsWith cn "set" && cn.length > 3 &&
    (match cn.data.drop 3 with
     | c :: _ => c == c.toUpper
     | [] => false)

/-- Built-in denylist of App.jsx lines 197-202. -/
def builtins : List String :=
  ["alert", "console", "setTimeout", "setInterval", "clearTimeout",
   "clearInterval", "parseInt", "parseFloat", "isNaN", "isFinite",
   "encodeURI", "decodeURI", "encodeURIComponent", "decodeURIComponent",
   "JSON", "Math", "Date", "Array", "Object", "String", "Number",
   "Boolean", "Symbol", "Map", "Set", "WeakMap", "WeakSet", "Promise",
   "fetch", "require"]

/-- Branching node kinds of App.jsx line 251. -/
def branchTypes : List String :=
  ["IfStatement", "ConditionalExpression", "SwitchCase", "CatchClause"]

/-- Looping node kinds of App.jsx line 256. -/
def loopTypes : List String :=
  ["ForStatement", "WhileStatement", "DoWhileStatement", "ForInStatement", "ForOfStatement"]

/-- The `node?.name` access used on `id`, `callee` and JSX name fields:
only identifier nodes expose a `name` property. -/
def nodeNameO : Option JNode → Option String
  | some (.identifier n) => some n
  | _ => none

/-- `node.callee?.type === 'Identifier' ? node.callee.name : null`
(App.jsx lines 180-182). -/
def calleeNameOf : Option JNode → Option String
  | some (.identifier n) => some n
  | _ => none

/-- `node.openingElement?.name?.name` (App.jsx line 161). -/
def jsxElementNameOf : Option JNode → Option String
  | some (.jsxOpeningElement nm _) => nodeNameO nm
  | _ => none

/-- Recogniser for `node.init?.type === 'ArrowFunctionExpression' ||
node.init?.type === 'FunctionExpression'` (App.jsx lines 108-109). -/
def isFunctionInit : Option JNode → Bool
  | some (.arrowFunctionExpression _) => true
  | some (.functionExpression _) => true
  | _ => false

/-- JavaScript `[...new Set(list)]`: keep the first occurrence of each
element, in order (App.jsx lines 298-303). -/
def dedupJS (l : List String) : List String :=
  l.foldl (fun acc x => if acc.contains x then acc else acc ++ [x]) []

/-- JavaScript `set.add(x)` on a `Set` modelled as an ordered list. -/
def insertSet (x : String) (l : List String) : List String :=
  if l.contains x then l else l ++ [x]

/-- JavaScript property assignment `obj[k] = v` on a string-keyed object:
overwrite in place if present, otherwise append. -/
def setAssoc {α : Type} : List (String × α) → String → α → List (String × α)
  | [], k, v => [(k, v)]
  | (k', v') :: rest, k, v =>
      if k' = k then (k, v) :: rest else (k', v') :: setAssoc rest k v

/-- `if (!functionDependencies[f]) functionDependencies[f] = {}`
(App.jsx lines 84-86, 130-132, 166-168, 210-212). -/
def ensureKey (f : String) (m : DepsMap) : DepsMap :=
  if (m.lookup f).isSome then m else m ++ [(f, [])]

/-- `fd[f][t] = (fd[f][t] || 0) + 1` on the inner object. -/
def bumpInner (ts : List (String × Nat)) (t : String) : List (String × Nat) :=
  setAssoc ts t ((ts.lookup t).getD 0 + 1)

/-- Accumulate one call/usage of `t` from `f` in the dependency map,
creating the outer entry when absent (App.jsx lines 166-170, 210-214). -/
def bumpDep (f t : String) (m : DepsMap) : DepsMap :=
  (ensureKey f m).map (fun p => if p.1 = f then (p.1, bumpInner p.2 t) else p)

/-- Mutable state accumulated by `traverse`: the `analysis` object fields
it writes (App.jsx lines 24-51) together with the walk-local accumulators
`functionDependencies`, `allDefinedFunctions` and `functionTypes`
(lines 54-56).  `vars` stands for the JavaScript field `variables`,
a reserved token in Lean. -/
structure TState where
  functions : List String
  vars : List String
  eventHandlers : List String
  components : List String
  hooks : List String
  imports : List ImportEdge
  exports : List String
  depthMax : Nat
  branches : Nat
  loops : Nat
  cc : Nat
  issues : List Issue
  cbo : Nat
  wmc : Nat
  depComponents : List String
  allFns : List String
  functionDependencies : DepsMap
  allDefinedFunctions : List String
  functionTypes : List (String × String)
deriving DecidableEq, Repr

/-- Initial accumulator (App.jsx lines 24-56): empty collections,
`cyclomaticComplexity` starts at 1. -/
def initState : TState :=
  { functions := [], vars := [], eventHandlers := [], components := []
    hooks := [], imports := [], exports := [], depthMax := 0
    branches := 0, loops := 0, cc := 1, issues := [], cbo := 0, wmc := 0
    depComponents := [], allFns := [], functionDependencies := []
    allDefinedFunctions := [], functionTypes := [] }

/-- `analysis.complexity.depth = Math.max(depth, ...)` (App.jsx line 61). -/
def atDepth (d : Nat) (s : TState) : TState :=
  { s with depthMax := max s.depthMax d }

/-- Registration of a named function-like declaration (App.jsx
lines 66-86 and their verbatim duplicate at lines 112-132): push the
name, bump `wmc`, remember it as defined, classify it (component check
first, then handler, else helper) and make sure it owns a dependency
entry. -/
def registerFunction (funcName : String) (s : TState) : TState :=
  let s := { s with functions := s.functions ++ [funcName]
                    wmc := s.wmc + 1
                    allDefinedFunctions := insertSet funcName s.allDefinedFunctions }
  let s :=
    if isCapitalized funcName then
      { s with components := s.components ++ [funcName]
               depComponents := s.depComponents ++ [funcName]
               functionTypes := setAssoc s.functionTypes funcName "component" }
    else if isHandlerShaped funcName then
      { s with eventHandlers := s.eventHandlers ++ [funcName]
               functionTypes := setAssoc s.functionTypes funcName "handler" }
    else
      { s with functionTypes := setAssoc s.functionTypes funcName "helper" }
  let s := { s with allFns := s.allFns ++ [funcName] }
  { s with functionDependencies := ensureKey funcName s.functionDependencies }

/-- JSX usage accumulation (App.jsx lines 159-173): a capitalized element
name used while inside a function scope bumps the dependency counter. -/
def visitJSXName (cur : Option String) (elementName : Option String) (s : TState) : TState :=
  match elementName, cur with
  | some en, some f =>
      if isCapitalized en then
        { s with functionDependencies := bumpDep f en s.functionDependencies }
      else s
  | _, _ => s

/-- Call-expression accumulation (App.jsx lines 188-217): hook names are
collected unconditionally; a dependency is recorded only inside a scope,
for a callee different from the scope that is neither a built-in, a hook
call, nor a `setX`-style setter. -/
def visitCall (cur : Option String) (calleeName : Option String) (s : TState) : TState :=
  match calleeName with
  | none => s
  | some cn =>
      let s := if strStartsWith cn "use" then { s with hooks := s.hooks ++ [cn] } else s
      match cur with
      | some f =>
          if cn ≠ f then
            if ¬ builtins.contains cn ∧ ¬ strStartsWith cn "use" ∧ ¬ isSetState cn then
              { s with functionDependencies := bumpDep f cn s.functionDependencies }
            else s
          else s
      | none => s

/-- Import handling (App.jsx lines 221-240): append the import edge
(source plus the truthy local names) and bump coupling. -/
def visitImport (source : Option String) (specifiers : List (Option String)) (s : TState) : TState :=
  { s with imports := s.imports ++ [⟨source, specifiers.filterMap id⟩]
           cbo := s.cbo + 1 }

/-- The `node.declaration?.id?.name` access of App.jsx line 245: only a
function-like declaration exposes an `id`. -/
def exportNameOf : Option JNode → Option String
  | some (.functionDeclaration id _) => nodeNameO id
  | _ => none

/-- Export handling (App.jsx lines 243-248): record
`node.declaration?.id?.name` when present. -/
def visitExport (decl : Option JNode) (s : TState) : TState :=
  match exportNameOf decl with
  | some nm => { s with exports := s.exports ++ [nm] }
  | none => s

/-- Security issue for `dangerouslySetInnerHTML` (App.jsx lines 266-273). -/
def dsiIssue : Issue :=
  ⟨"security", "dangerouslySetInnerHTML 사용 감지 - XSS 위험", "high"⟩

/-- Security issue for `eval` (App.jsx lines 275-281). -/
def evalIssue : Issue :=
  ⟨"security", "eval() 사용 감지 - 보안 위험", "high"⟩

mutual
/-- The recursive walk `traverse(node, depth, parentFunction)` of App.jsx
lines 58-293, with the mutable `currentFunction` passed explicitly as
`cur`.  (The JavaScript `parentFunction` parameter is never read by the
source and is dropped.)  Each arm follows the source checks in order;
constructors not matched by any check only perform the generic child
recursion of lines 284-292. -/
def traverse (n : JNode) (d : Nat) (cur : Option String) (s0 : TState) : TState :=
  let s := atDepth d s0
  match n with
  | .identifier _ => s
  | .stringLiteral _ => s
  | .numericLiteral _ => s
  | .booleanLiteral _ => s
  | .nullLiteral => s
  | .functionDeclaration id children =>
      -- App.jsx lines 64-104; the named branch skips the `id` field.
      (match nodeNameO id with
       | some funcName =>
           traverseList children (d+1) (some funcName) (registerFunction funcName s)
       | none =>
           traverseList children (d+1) cur (traverseOpt id (d+1) cur s))
  | .variableDeclarator id init =>
      -- App.jsx lines 107-156.
      if isFunctionInit init then
        (match nodeNameO id with
         | some funcName =>
             -- Lines 110-149: register, then walk the initializer's own
             -- child fields under the new scope; `id` is not revisited.
             traverseFnBody init (d+1) (some funcName) (registerFunction funcName s)
         | none =>
             -- Unnamed function initializer: no registration, fall through
             -- to the generic child recursion over `id` and `init`.
             traverseOpt init (d+1) cur (traverseOpt id (d+1) cur s))
      else
        -- Lines 151-155 then generic recursion over `id` and `init`.
        let s := match nodeNameO id with
                 | some v => { s with vars := s.vars ++ [v] }
                 | none => s
        traverseOpt init (d+1) cur (traverseOpt id (d+1) cur s)
  | .arrowFunctionExpression children =>
      traverseList children (d+1) cur s
  | .functionExpression children =>
      traverseList children (d+1) cur s
  | .arrayPattern elements =>
      traverseList elements (d+1) cur s
  | .jsxElement opening rest =>
      -- App.jsx lines 159-173, then generic recursion (openingElement first).
      let s := visitJSXName cur (jsxElementNameOf opening) s
      traverseList rest (d+1) cur (traverseOpt opening (d+1) cur s)
  | .jsxOpeningElement nm attributes =>
      let s := visitJSXName cur (nodeNameO nm) s
      traverseList attributes (d+1) cur (traverseOpt nm (d+1) cur s)
  | .jsxAttribute nm value =>
      -- App.jsx lines 266-273.
      let s := if nodeNameO nm == some "dangerouslySetInnerHTML"
               then { s with issues := s.issues ++ [dsiIssue] } else s
      traverseOpt value (d+1) cur (traverseOpt nm (d+1) cur s)
  | .callExpression callee args =>
      -- App.jsx lines 176-218 (hooks and dependencies), then the `eval`
      -- check of lines 275-281, then generic recursion.
      let cn := calleeNameOf callee
      let s := visitCall cur cn s
      let s := if cn == some "eval" then { s with issues := s.issues ++ [evalIssue] } else s
      traverseList args (d+1) cur (traverseOpt callee (d+1) cur s)
  | .importDeclaration source specifiers rest =>
      let s := visitImport source specifiers s
      traverseList rest (d+1) cur s
  | .exportDeclaration decl rest =>
      let s := visitExport decl s
      traverseList rest (d+1) cur (traverseOpt decl (d+1) cur s)
  | .logicalExpression operator children =>
      -- App.jsx lines 261-263.
      let s := if operator == "&&" || operator == "||"
               then { s with cc := s.cc + 1 } else s
      traverseList children (d+1) cur s
  | .stmtNode ty children =>
      -- App.jsx lines 251-259: branch and loop kind counting by type.
      let s := if branchTypes.contains ty
               then { s with branches := s.branches + 1, cc := s.cc + 1 } else s
      let s := if loopTypes.contains ty
               then { s with loops := s.loops + 1, cc := s.cc + 1 } else s
      traverseList children (d+1) cur s

/-- Walk of the child fields of a function-like initializer
(App.jsx lines 138-146): the initializer node's own fields are iterated
directly, so its children are visited at the declarator's depth + 1. -/
def traverseFnBody (init : Option JNode) (d : Nat) (cur : Option String) (s : TState) : TState :=
  match init with
  | some (.arrowFunctionExpression cs) => traverseList cs d cur s
  | some (.functionExpression cs) => traverseList cs d cur s
  | _ => s

/-- `child && typeof child === 'object' && traverse(child, ...)`. -/
def traverseOpt (n : Option JNode) (d : Nat) (cur : Option String) (s : TState) : TState :=
  match n with
  | none => s
  | some n => traverse n d cur s

/-- `child.forEach(c => traverse(c, depth + 1, ...))`. -/
def traverseList (l : List JNode) (d : Nat) (cur : Option String) (s : TState) : TState :=
  match l with
  | [] => s
  | c :: cs => traverseList cs d cur (traverse c d cur s)
end

/-- Post-walk dependency finalisation (App.jsx lines 306-320): keep an
edge only when the target is a locally defined function or capitalized;
decorate with the classified types, defaulting exactly as the source. -/
def finalizeInner (f : String) (targets : List (String × Nat))
    (defined : List String) (types : List (String × String)) : List DepEdge :=
  match targets with
  | [] => []
  | (t, c) :: rest =>
      (if defined.contains t || isCapitalized t then
        [{ fromName := f, toName := t, count := c
           fromType := (types.lookup f).getD "unknown"
           toType := (types.lookup t).getD (if isCapitalized t then "component" else "external") }]
      else []) ++ finalizeInner f rest defined types

/-- Outer loop of the dependency finalisation (App.jsx lines 307-320). -/
def finalizeDeps (fd : DepsMap) (defined : List String) (types : List (String × String)) :
    List DepEdge :=
  match fd with
  | [] => []
  | (f, targets) :: rest =>
      finalizeInner f targets defined types ++ finalizeDeps rest defined types

/-- Success record built by `analyzeCode` (App.jsx lines 24-51 as filled
in by the walk, deduplicated and finalised by lines 295-334).  The flat
fields mirror the nested JavaScript object: `depth`/`branches`/`loops`
are `analysis.complexity.*`, `cyclomaticComplexity`/`cbo`/`wmc` are
`analysis.metrics.*`, `depComponents`/`allFunctions`/`dependencies`/
`functionTypes` are `analysis.dependencyAnalysis.*`.  The real-valued
`metrics.maintainabilityIndex` is the derived accessor
`maintainabilityIndex` below. -/
structure Analysis where
  filename : String
  functions : List String
  vars : List String
  eventHandlers : List String
  components : List String
  hooks : List String
  imports : List ImportEdge
  exports : List String
  depth : Nat
  branches : Nat
  loops : Nat
  issues : List Issue
  loc : Nat
  cyclomaticComplexity : Nat
  cbo : Nat
  wmc : Nat
  depComponents : List String
  allFunctions : List String
  dependencies : List DepEdge
  functionTypes : List (String × String)
  analysisTime : String
deriving DecidableEq, Repr

/-- Error record returned on parse failure (App.jsx lines 337-344): only
filename, error message, line count and duration. -/
structure ErrorRecord where
  filename : String
  error : String
  loc : Nat
  analysisTime : String
deriving DecidableEq, Repr

/-- Result of `analyzeCode`: by construction a record is either a success
record or an error record, never both. -/
inductive AnalysisRecord where
  | success (a : Analysis)
  | failure (e : ErrorRecord)
deriving DecidableEq, Repr

/-- `code.split('\n').length` (App.jsx lines 35 and 341). -/
def locOf (code : String) : Nat :=
  (code.splitOn "\n").length

/-- Success path of `analyzeCode` (App.jsx lines 24-336): run the walk
from the program root at depth 0 with no enclosing function, deduplicate
the name collections (lines 298-303; `eventHandlers`, `exports` and
`imports` are not deduplicated by the source), and finalise the
dependency list. -/
def buildAnalysis (ast : JNode) (filename : String) (loc : Nat) (analysisTime : String) :
    Analysis :=
  let t := traverse ast 0 none initState
  { filename := filename
    functions := dedupJS t.functions
    vars := dedupJS t.vars
    eventHandlers := t.eventHandlers
    components := dedupJS t.components
    hooks := dedupJS t.hooks
    imports := t.imports
    exports := t.exports
    depth := t.depthMax
    branches := t.branches
    loops := t.loops
    issues := t.issues
    loc := loc
    cyclomaticComplexity := t.cc
    cbo := t.cbo
    wmc := t.wmc
    depComponents := dedupJS t.depComponents
    allFunctions := dedupJS t.allFns
    dependencies := finalizeDeps t.functionDependencies t.allDefinedFunctions t.functionTypes
    functionTypes := t.functionTypes
    analysisTime := analysisTime }

/-- `analyzeCode(code, filename)` (App.jsx lines 14-345), parameterised by
the injected parser (`parser.parse`, line 18): a parse failure is caught
and becomes an error record carrying the failure message; otherwise the
walk produces a full analysis.  The elapsed-time stamp is an opaque
environment input. -/
def analyzeCode (parse : String → Except String JNode) (analysisTime : String)
    (code filename : String) : AnalysisRecord :=
  match parse code with
  | .ok ast => .success (buildAnalysis ast filename (locOf code) analysisTime)
  | .error msg => .failure { filename := filename, error := msg
                             loc := locOf code, analysisTime := analysisTime }

/-- `calculateQualityScore` (App.jsx lines 347-361).  `Math.round` is the
identity on the integer-valued score. -/
def calculateQualityScore : AnalysisRecord → Int
  | .failure _ => 0
  | .success a =>
      let score : Int := 100
      let score := score - min 30 ((a.cyclomaticComplexity : Int) * 2)
      let score := score - min 15 (a.depth : Int)
      let score := score - (a.issues.length : Int) * 10
      let score := if a.loc > 300 then score - 10 else score
      let score := if a.loc > 500 then score - 10 else score
      let score := if a.hooks.length > 0 && a.components.length > 0 then score + 5 else score
      max 0 (min 100 score)

/-- Real-valued maintainability formula of App.jsx line 330, with
`V = analysis.loc` and `LOC = analysis.loc` (lines 326-328): both
logarithms are applied to the same `loc + 1`. -/
noncomputable def miRaw (loc cc : Nat) : ℝ :=
  171 - 5.2 * Real.log ((loc : ℝ) + 1) - 0.23 * (cc : ℝ) - 16.2 * Real.log ((loc : ℝ) + 1)

/-- `metrics.maintainabilityIndex` as stored by App.jsx lines 330-332:
clamp to [0, 100] first, then `Math.round`. -/
noncomputable def maintainabilityIndex (a : Analysis) : ℤ :=
  round (max 0 (min 100 (miRaw a.loc a.cyclomaticComplexity)))

/-- Record accessors used by the aggregation, with the JavaScript
`x?.y || 0` defaulting for error records. -/
def recLoc : AnalysisRecord → Nat
  | .success a => a.loc
  | .failure e => e.loc

/-- `r.error` truthiness test (App.jsx line 1086). -/
def isError : AnalysisRecord → Bool
  | .success _ => false
  | .failure _ => true

/-- `r.functions?.length || 0`. -/
def recFunctionsLen : AnalysisRecord → Nat
  | .success a => a.functions.length
  | .failure _ => 0

/-- `r.variables?.length || 0`. -/
def recVariablesLen : AnalysisRecord → Nat
  | .success a => a.vars.length
  | .failure _ => 0

/-- `r.eventHandlers?.length || 0`. -/
def recHandlersLen : AnalysisRecord → Nat
  | .success a => a.eventHandlers.length
  | .failure _ => 0

/-- `r.components?.length || 0`. -/
def recComponentsLen : AnalysisRecord → Nat
  | .success a => a.components.length
  | .failure _ => 0

/-- `r.hooks || []`. -/
def recHooks : AnalysisRecord → List String
  | .success a => a.hooks
  | .failure _ => []

/-- `r.imports?.map(i => i.source) || []`. -/
def recImportSources : AnalysisRecord → List (Option String)
  | .success a => a.imports.map (·.source)
  | .failure _ => []

/-- `r.issues?.length || 0`. -/
def recIssuesLen : AnalysisRecord → Nat
  | .success a => a.issues.length
  | .failure _ => 0

/-- `r.metrics?.cyclomaticComplexity || 0`. -/
def recCC : AnalysisRecord → Nat
  | .success a => a.cyclomaticComplexity
  | .failure _ => 0

/-- `r.metrics?.cbo || 0`. -/
def recCBO : AnalysisRecord → Nat
  | .success a => a.cbo
  | .failure _ => 0

/-- `r.metrics?.wmc || 0`. -/
def recWMC : AnalysisRecord → Nat
  | .success a => a.wmc
  | .failure _ => 0

/-- `r.metrics?.maintainabilityIndex || 0`. -/
noncomputable def recMI : AnalysisRecord → ℤ
  | .success a => maintainabilityIndex a
  | .failure _ => 0

/-- Generic dedup over any type, for the union fields of the summary
(`[...new Set(...)]` over hook names and import sources). -/
def dedupJSGen {α : Type} [BEq α] (l : List α) : List α :=
  l.foldl (fun acc x => if acc.contains x then acc else acc ++ [x]) []

/-- Project summary object built by `processFiles` (App.jsx
lines 1126-1149).  The wall-clock `totalAnalysisTime` and the merged
`dependencyAnalysis` object are presentation data outside the claims and
are not modelled. -/
structure ProjectSummary where
  totalFiles : Nat
  totalLOC : Nat
  totalFunctions : Nat
  totalVariables : Nat
  totalEventHandlers : Nat
  totalComponents : Nat
  totalHooks : List String
  totalImports : List (Option String)
  totalIssues : Nat
  avgQualityScore : ℤ
  avgCyclomaticComplexity : ℤ
  avgMaintainabilityIndex : ℤ
  totalCBO : Nat
  totalWMC : Nat

/-- Aggregation of App.jsx lines 1086 and 1126-1148: partition into
successful records (`validResults`), sum `loc` over all records but every
other metric over the successful ones only, and guard each mean by
`validResults.length > 0 ? Math.round(sum / length) : 0` (division
idealised over the rationals). -/
noncomputable def processSummary (records : List AnalysisRecord) : ProjectSummary :=
  let valid := records.filter (fun r => !isError r)
  { totalFiles := records.length
    totalLOC := (records.map recLoc).sum
    totalFunctions := (valid.map recFunctionsLen).sum
    totalVariables := (valid.map recVariablesLen).sum
    totalEventHandlers := (valid.map recHandlersLen).sum
    totalComponents := (valid.map recComponentsLen).sum
    totalHooks := dedupJSGen (valid.flatMap recHooks)
    totalImports := dedupJSGen (valid.flatMap recImportSources)
    totalIssues := (valid.map recIssuesLen).sum
    avgQualityScore :=
      if valid.length > 0 then
        round (((valid.map calculateQualityScore).sum : ℚ) / (valid.length : ℚ))
      else 0
    avgCyclomaticComplexity :=
      if valid.length > 0 then
        round ((((valid.map recCC).sum : ℤ) : ℚ) / (valid.length : ℚ))
      else 0
    avgMaintainabilityIndex :=
      if valid.length > 0 then
        round (((valid.map recMI).sum : ℚ) / (valid.length : ℚ))
      else 0
    totalCBO := (valid.map recCBO).sum
    totalWMC := (valid.map recWMC).sum }


/-- Triple of branch, loop and logical decision-point counts of a
subtree, used to state the cyclomatic-complexity bookkeeping of the
walk. -/
structure CCCount where
  br : Nat
  lp : Nat
  lg : Nat
deriving DecidableEq, Repr

/-- Pointwise addition of decision-point counts. -/
def cadd (a b : CCCount) : CCCount :=
  ⟨a.br + b.br, a.lp + b.lp, a.lg + b.lg⟩

mutual
/-- Structural count of branching nodes, looping nodes and `&&`/`||`
logical expressions in a subtree, over exactly the child fields the walk
recurses into. -/
def cnt : JNode → CCCount
  | .identifier _ => ⟨0, 0, 0⟩
  | .stringLiteral _ => ⟨0, 0, 0⟩
  | .numericLiteral _ => ⟨0, 0, 0⟩
  | .booleanLiteral _ => ⟨0, 0, 0⟩
  | .nullLiteral => ⟨0, 0, 0⟩
  | .functionDeclaration id cs => cadd (cntO id) (cntL cs)
  | .variableDeclarator id init => cadd (cntO id) (cntO init)
  | .arrowFunctionExpression cs => cntL cs
  | .functionExpression cs => cntL cs
  | .arrayPattern es => cntL es
  | .jsxElement o r => cadd (cntO o) (cntL r)
  | .jsxOpeningElement nm attrs => cadd (cntO nm) (cntL attrs)
  | .jsxAttribute nm v => cadd (cntO nm) (cntO v)
  | .callExpression c args => cadd (cntO c) (cntL args)
  | .importDeclaration _ _ rest => cntL rest
  | .exportDeclaration decl rest => cadd (cntO decl) (cntL rest)
  | .logicalExpression op cs =>
      cadd ⟨0, 0, if op == "&&" || op == "||" then 1 else 0⟩ (cntL cs)
  | .stmtNode ty cs =>
      cadd ⟨if branchTypes.contains ty then 1 else 0,
            if loopTypes.contains ty then 1 else 0, 0⟩ (cntL cs)
/-- Count of an optional child field. -/
def cntO : Option JNode → CCCount
  | none => ⟨0, 0, 0⟩
  | some n => cnt n
/-- Count of a list of children. -/
def cntL : List JNode → CCCount
  | [] => ⟨0, 0, 0⟩
  | n :: ns => cadd (cnt n) (cntL ns)
end

/-- Counts contributed by `traverseFnBody`: the children of a
function-like initializer, zero otherwise. -/
def fnCnt : Option JNode → CCCount
  | some (.arrowFunctionExpression cs) => cntL cs
  | some (.functionExpression cs) => cntL cs
  | _ => ⟨0, 0, 0⟩

/-- Invariant of the dependency map maintained by the walk: every
recorded target is capitalized (JSX usages) or off the built-in denylist
(call sites). -/
def TargetsOK (m : DepsMap) : Prop :=
  ∀ p ∈ m, ∀ q ∈ p.2, isCapitalized q.1 = true ∨ builtins.contains q.1 = false

/-- Maintainability index as the claim states it: round first, clamp
afterwards (the source clamps first and then rounds; the two agree). -/
noncomputable def miSpecValue (loc cc : Nat) : ℤ :=
  max 0 (min 100 (round (miRaw loc cc)))

/-- Quality score as the claim words it: 100, minus `min(30, 2·CC)`,
minus `min(15, maxDepth)`, minus 10 per issue, minus 10 when the line
count exceeds 300 and another 10 when it exceeds 500, plus 5 when there
is at least one hook and at least one component, clamped to [0, 100];
an error record scores 0. -/
def qualityScoreSpec : AnalysisRecord → Int
  | .failure _ => 0
  | .success a =>
      max 0 (min 100
        (100 - min 30 (2 * (a.cyclomaticComplexity : Int))
             - min 15 (a.depth : Int)
             - 10 * (a.issues.length : Int)
             - (if 300 < a.loc then 10 else 0)
             - (if 500 < a.loc then 10 else 0)
             + (if a.hooks ≠ [] ∧ a.components ≠ [] then 5 else 0)))

/-- Modelled from the spec: `StateUnit` (spec section 3), created for a
two-element array destructuring initialised by a call literally named
`useState`.  The state-model engine is not present in
`src/parse_web/src/App.jsx`; only its data model and walk behaviour are
described by the spec. -/
structure StateUnit where
  name : String
  setterName : String
  initialValueLiteral : String
  owningComponent : String
deriving DecidableEq, Repr

/-- Modelled from the spec: `StateTransition` (spec section 3), recorded
at every call site whose callee identifier equals a previously registered
setter name. -/
structure StateTransition where
  stateName : String
  setterName : String
  owningComponent : String
deriving DecidableEq, Repr

/-- Modelled from the spec: the state portion of the analysis record,
together with the setter-to-state registration map used for transition
detection. -/
structure StateModel where
  states : List StateUnit
  transitions : List StateTransition
  setterMap : List (String × String)
deriving DecidableEq, Repr

/-- Modelled from the spec: rendered textual form of a `useState`
initializer (spec section 3: a quoted string, a number, `true`, `false`,
`null`, `[]`, an object or arrow placeholder, and `undefined` when absent
or unrecognized). -/
def renderLiteral : Option JNode → String
  | none => "undefined"
  | some (.stringLiteral v) => "\"" ++ v ++ "\""
  | some (.numericLiteral i) => toString i
  | some (.booleanLiteral b) => if b then "true" else "false"
  | some (.nullLiteral) => "null"
  | some (.stmtNode "ArrayExpression" _) => "[]"
  | some (.stmtNode "ObjectExpression" _) => "\x7b\x7d"
  | some (.arrowFunctionExpression _) => "() => ..."
  | some _ => "undefined"

/-- Modelled from the spec: recogniser for a two-element array
destructuring whose initializer is a call to a hook literally named
`useState`; yields the state name, the setter name and the first
argument. -/
def useStateOf : Option JNode → Option JNode → Option (String × String × Option JNode)
  | some (.arrayPattern [.identifier nm, .identifier st]),
    some (.callExpression (some (.identifier "useState")) args) => some (nm, st, args.head?)
  | _, _ => none

/-- Modelled from the spec: transition detection at a call site (spec
section 3): a call whose callee identifier equals a registered setter
appends one `StateTransition` for the registered state. -/
def recordTransition (cur : String) (calleeName : Option String) (m : StateModel) : StateModel :=
  match calleeName with
  | some cn =>
      (match m.setterMap.lookup cn with
       | some st => { m with transitions := m.transitions ++ [⟨st, cn, cur⟩] }
       | none => m)
  | none => m

mutual
/-- Modelled from the spec: the state-extraction walk (spec sections 3,
4.1 and 4.2).  The current enclosing declaration is tracked exactly like
the engine's scope tracker, with the spec's sentinel `"Unknown"` file
scope at top level; a `useState` destructuring appends a `StateUnit` and
registers its setter; every later call whose callee identifier equals a
registered setter appends one `StateTransition`. -/
def stateWalk (n : JNode) (cur : String) (m : StateModel) : StateModel :=
  match n with
  | .identifier _ => m
  | .stringLiteral _ => m
  | .numericLiteral _ => m
  | .booleanLiteral _ => m
  | .nullLiteral => m
  | .functionDeclaration id children =>
      (match nodeNameO id with
       | some fn => stateWalkL children fn m
       | none => stateWalkL children cur (stateWalkO id cur m))
  | .variableDeclarator id init =>
      (match useStateOf id init with
       | some (nm, st, arg0) =>
           let m := { m with states := m.states ++ [⟨nm, st, renderLiteral arg0, cur⟩]
                             setterMap := setAssoc m.setterMap st nm }
           stateWalkO init cur m
       | none =>
           if isFunctionInit init then
             (match nodeNameO id with
              | some fn => stateFnBody init fn m
              | none => stateWalkO init cur (stateWalkO id cur m))
           else stateWalkO init cur (stateWalkO id cur m))
  | .arrowFunctionExpression cs => stateWalkL cs cur m
  | .functionExpression cs => stateWalkL cs cur m
  | .arrayPattern es => stateWalkL es cur m
  | .jsxElement o r => stateWalkL r cur (stateWalkO o cur m)
  | .jsxOpeningElement nm attrs => stateWalkL attrs cur (stateWalkO nm cur m)
  | .jsxAttribute nm v => stateWalkO v cur (stateWalkO nm cur m)
  | .callExpression callee args =>
      stateWalkL args cur (stateWalkO callee cur (recordTransition cur (calleeNameOf callee) m))
  | .importDeclaration _ _ rest => stateWalkL rest cur m
  | .exportDeclaration decl rest => stateWalkL rest cur (stateWalkO decl cur m)
  | .logicalExpression _ cs => stateWalkL cs cur m
  | .stmtNode _ cs => stateWalkL cs cur m
/-- Modelled from the spec: walk of a named function-like initializer's
children under the new scope. -/
def stateFnBody (init : Option JNode) (cur : String) (m : StateModel) : StateModel :=
  match init with
  | some (.arrowFunctionExpression cs) => stateWalkL cs cur m
  | some (.functionExpression cs) => stateWalkL cs cur m
  | _ => m
/-- Modelled from the spec: walk of an optional child. -/
def stateWalkO (n : Option JNode) (cur : String) (m : StateModel) : StateModel :=
  match n with
  | none => m
  | some n => stateWalk n cur m
/-- Modelled from the spec: walk of a list of children. -/
def stateWalkL (l : List JNode) (cur : String) (m : StateModel) : StateModel :=
  match l with
  | [] => m
  | c :: cs => stateWalkL cs cur (stateWalk c cur m)
end

/-- Modelled from the spec: state model of a whole file, walked from the
root at the sentinel `"Unknown"` file scope. -/
def stateModelOf (ast : JNode) : StateModel :=
  stateWalk ast "Unknown" ⟨[], [], []⟩

/-- Monotone extension between state models: the walk only appends to
the collected states and transitions. -/
def MonoExt (m mf : StateModel) : Prop :=
  (∃ t, mf.states = m.states ++ t) ∧ (∃ u, mf.transitions = m.transitions ++ u)

/-- Sample program: a component `Foo` that renders itself
(`const Foo = () => <Foo/>`). -/
def selfAst : JNode :=
  .stmtNode "Program"
    [.stmtNode "VariableDeclaration"
      [.variableDeclarator (some (.identifier "Foo"))
        (some (.arrowFunctionExpression
          [.jsxElement (some (.jsxOpeningElement (some (.identifier "Foo")) [])) []]))]]

/-- Sample program: a top-level call to a locally declared function
(`function foo(){}  foo();`). -/
def topAst : JNode :=
  .stmtNode "Program"
    [.functionDeclaration (some (.identifier "foo")) [.stmtNode "BlockStatement" []],
     .stmtNode "ExpressionStatement" [.callExpression (some (.identifier "foo")) []]]

/-- Sample program with one branch, one `&&` and one loop. -/
def ccAst : JNode :=
  .stmtNode "Program"
    [.stmtNode "IfStatement" [.logicalExpression "&&" [.identifier "a", .identifier "b"]],
     .stmtNode "ForStatement" []]

/-- Sample component with a `useState` destructuring and a setter call
(`const Button = () => { const [x, setX] = useState(0); setX(1); }`). -/
def buttonAst : JNode :=
  .stmtNode "Program"
    [.stmtNode "VariableDeclaration"
      [.variableDeclarator (some (.identifier "Button"))
        (some (.arrowFunctionExpression
          [.stmtNode "VariableDeclaration"
            [.variableDeclarator
              (some (.arrayPattern [.identifier "x", .identifier "setX"]))
              (some (.callExpression (some (.identifier "useState")) [.numericLiteral 0]))],
           .stmtNode "ExpressionStatement"
            [.callExpression (some (.identifier "setX")) [.numericLiteral 1]]]))]]

/-- Parser stub that always fails, for exercising the error path. -/
def parseFailing : String → Except String JNode :=
  fun _ => .error "Unexpected token (1:0)"

/-- Parser stub returning the branching sample. -/
def parseCC : String → Except String JNode :=
  fun _ => .ok ccAst


/-! ### Small facts about the state helpers -/

theorem atDepth_branches (d : Nat) (s : TState) : (atDepth d s).branches = s.branches := rfl

theorem atDepth_loops (d : Nat) (s : TState) : (atDepth d s).loops = s.loops := rfl

theorem atDepth_cc (d : Nat) (s : TState) : (atDepth d s).cc = s.cc := rfl

theorem registerFunction_branches (fn : String) (s : TState) :
    (registerFunction fn s).branches = s.branches := by
  simp only [registerFunction]
  split_ifs <;> rfl

theorem registerFunction_loops (fn : String) (s : TState) :
    (registerFunction fn s).loops = s.loops := by
  simp only [registerFunction]
  split_ifs <;> rfl

theorem registerFunction_cc (fn : String) (s : TState) :
    (registerFunction fn s).cc = s.cc := by
  simp only [registerFunction]
  split_ifs <;> rfl

theorem visitJSXName_branches (cur en : Option String) (s : TState) :
    (visitJSXName cur en s).branches = s.branches := by
  rcases en with _ | e <;> rcases cur with _ | f <;> simp [visitJSXName] <;> split_ifs <;> rfl

theorem visitJSXName_loops (cur en : Option String) (s : TState) :
    (visitJSXName cur en s).loops = s.loops := by
  rcases en with _ | e <;> rcases cur with _ | f <;> simp [visitJSXName] <;> split_ifs <;> rfl

theorem visitJSXName_cc (cur en : Option String) (s : TState) :
    (visitJSXName cur en s).cc = s.cc := by
  rcases en with _ | e <;> rcases cur with _ | f <;> simp [visitJSXName] <;> split_ifs <;> rfl

theorem visitCall_branches (cur cn : Option String) (s : TState) :
    (visitCall cur cn s).branches = s.branches := by
  rcases cn with _ | c
  · rfl
  · rcases cur with _ | f <;> simp [visitCall] <;> split_ifs <;> rfl

theorem visitCall_loops (cur cn : Option String) (s : TState) :
    (visitCall cur cn s).loops = s.loops := by
  rcases cn with _ | c
  · rfl
  · rcases cur with _ | f <;> simp [visitCall] <;> split_ifs <;> rfl

theorem visitCall_cc (cur cn : Option String) (s : TState) :
    (visitCall cur cn s).cc = s.cc := by
  rcases cn with _ | c
  · rfl
  · rcases cur with _ | f <;> simp [visitCall] <;> split_ifs <;> rfl

theorem visitImport_branches (src : Option String) (sp : List (Option String)) (s : TState) :
    (visitImport src sp s).branches = s.branches := rfl

theorem visitImport_loops (src : Option String) (sp : List (Option String)) (s : TState) :
    (visitImport src sp s).loops = s.loops := rfl

theorem visitImport_cc (src : Option String) (sp : List (Option String)) (s : TState) :
    (visitImport src sp s).cc = s.cc := rfl

theorem visitExport_branches (decl : Option JNode) (s : TState) :
    (visitExport decl s).branches = s.branches := by
  unfold visitExport
  rcases exportNameOf decl with _ | nm <;> rfl

theorem visitExport_loops (decl : Option JNode) (s : TState) :
    (visitExport decl s).loops = s.loops := by
  unfold visitExport
  rcases exportNameOf decl with _ | nm <;> rfl

theorem visitExport_cc (decl : Option JNode) (s : TState) :
    (visitExport decl s).cc = s.cc := by
  unfold visitExport
  rcases exportNameOf decl with _ | nm <;> rfl

/-! ### Shape lemmas for the walk's internal case analysis -/

theorem nodeNameO_shape {id : Option JNode} {fn : String} (h : nodeNameO id = some fn) :
    id = some (.identifier fn) := by
  rcases id with _ | n
  · simp [nodeNameO] at h
  · cases n <;> simp_all [nodeNameO]

theorem isFunctionInit_shape {init : Option JNode} (h : isFunctionInit init = true) :
    (∃ cs, init = some (.arrowFunctionExpression cs)) ∨
      (∃ cs, init = some (.functionExpression cs)) := by
  rcases init with _ | n
  · simp [isFunctionInit] at h
  · cases n <;> simp_all [isFunctionInit]

/-! ### Branch counting of the walk -/

mutual
theorem traverse_br : ∀ (n : JNode) (d : Nat) (cur : Option String) (s : TState),
    (traverse n d cur s).branches = s.branches + (cnt n).br
  | .identifier _, d, cur, s => by simp [traverse, cnt, atDepth]
  | .stringLiteral _, d, cur, s => by simp [traverse, cnt, atDepth]
  | .numericLiteral _, d, cur, s => by simp [traverse, cnt, atDepth]
  | .booleanLiteral _, d, cur, s => by simp [traverse, cnt, atDepth]
  | .nullLiteral, d, cur, s => by simp [traverse, cnt, atDepth]
  | .functionDeclaration id cs, d, cur, s => by
      simp only [traverse]
      cases hid : nodeNameO id with
      | some fn =>
          obtain rfl := nodeNameO_shape hid
          simp [nodeNameO, traverseList_br cs, registerFunction_branches, atDepth,
                cnt, cntO, cadd]
          try omega
      | none =>
          simp [hid, traverseList_br cs, traverseOpt_br id, atDepth, cnt, cadd]
          omega
  | .variableDeclarator id init, d, cur, s => by
      simp only [traverse]
      cases hfi : isFunctionInit init with
      | false =>
          cases hid : nodeNameO id <;>
            simp [hid, hfi, traverseOpt_br init, traverseOpt_br id, atDepth, cnt, cadd] <;>
            omega
      | true =>
          cases hid : nodeNameO id with
          | some fn =>
              obtain rfl := nodeNameO_shape hid
              rcases isFunctionInit_shape hfi with ⟨cs, rfl⟩ | ⟨cs, rfl⟩ <;>
                simp [nodeNameO, isFunctionInit, traverseFnBody, traverseList_br cs,
                      registerFunction_branches, atDepth, cnt, cntO, cntL, cadd] <;>
                try omega
          | none =>
              simp [hid, hfi, traverseOpt_br init, traverseOpt_br id, atDepth, cnt, cadd]
              omega
  | .arrowFunctionExpression cs, d, cur, s => by
      simp [traverse, traverseList_br cs, atDepth, cnt]
  | .functionExpression cs, d, cur, s => by
      simp [traverse, traverseList_br cs, atDepth, cnt]
  | .arrayPattern es, d, cur, s => by
      simp [traverse, traverseList_br es, atDepth, cnt]
  | .jsxElement o r, d, cur, s => by
      simp [traverse, traverseList_br r, traverseOpt_br o, visitJSXName_branches, atDepth,
            cnt, cadd]
      omega
  | .jsxOpeningElement nm attrs, d, cur, s => by
      simp [traverse, traverseList_br attrs, traverseOpt_br nm, visitJSXName_branches,
            atDepth, cnt, cadd]
      omega
  | .jsxAttribute nm v, d, cur, s => by
      simp only [traverse]
      split_ifs <;>
        simp [traverseOpt_br v, traverseOpt_br nm, atDepth, cnt, cadd] <;> omega
  | .callExpression c args, d, cur, s => by
      simp only [traverse]
      split_ifs <;>
        simp [traverseList_br args, traverseOpt_br c, visitCall_branches, atDepth, cnt,
              cadd] <;>
        omega
  | .importDeclaration src sp rest, d, cur, s => by
      simp [traverse, traverseList_br rest, visitImport_branches, atDepth, cnt]
  | .exportDeclaration decl rest, d, cur, s => by
      simp [traverse, traverseList_br rest, traverseOpt_br decl, visitExport_branches,
            atDepth, cnt, cadd]
      omega
  | .logicalExpression op cs, d, cur, s => by
      simp only [traverse]
      split_ifs <;> simp [traverseList_br cs, atDepth, cnt, cadd] <;> omega
  | .stmtNode ty cs, d, cur, s => by
      simp only [traverse, cnt]
      split_ifs <;> simp [traverseList_br cs, atDepth, cadd] <;> omega
theorem traverseOpt_br : ∀ (n : Option JNode) (d : Nat) (cur : Option String) (s : TState),
    (traverseOpt n d cur s).branches = s.branches + (cntO n).br
  | none, d, cur, s => by simp [traverseOpt, cntO]
  | some n, d, cur, s => by simp [traverseOpt, cntO, traverse_br n]
theorem traverseList_br : ∀ (l : List JNode) (d : Nat) (cur : Option String) (s : TState),
    (traverseList l d cur s).branches = s.branches + (cntL l).br
  | [], d, cur, s => by simp [traverseList, cntL]
  | c :: cs, d, cur, s => by
      simp [traverseList, cntL, traverseList_br cs, traverse_br c, cadd]
      omega
end

/-! ### Loop counting of the walk -/

mutual
theorem traverse_lp : ∀ (n : JNode) (d : Nat) (cur : Option String) (s : TState),
    (traverse n d cur s).loops = s.loops + (cnt n).lp
  | .identifier _, d, cur, s => by simp [traverse, cnt, atDepth]
  | .stringLiteral _, d, cur, s => by simp [traverse, cnt, atDepth]
  | .numericLiteral _, d, cur, s => by simp [traverse, cnt, atDepth]
  | .booleanLiteral _, d, cur, s => by simp [traverse, cnt, atDepth]
  | .nullLiteral, d, cur, s => by simp [traverse, cnt, atDepth]
  | .functionDeclaration id cs, d, cur, s => by
      simp only [traverse]
      cases hid : nodeNameO id with
      | some fn =>
          obtain rfl := nodeNameO_shape hid
          simp [nodeNameO, traverseList_lp cs, registerFunction_loops, atDepth,
                cnt, cntO, cadd]
          try omega
      | none =>
          simp [hid, traverseList_lp cs, traverseOpt_lp id, atDepth, cnt, cadd]
          omega
  | .variableDeclarator id init, d, cur, s => by
      simp only [traverse]
      cases hfi : isFunctionInit init with
      | false =>
          cases hid : nodeNameO id <;>
            simp [hid, hfi, traverseOpt_lp init, traverseOpt_lp id, atDepth, cnt, cadd] <;>
            omega
      | true =>
          cases hid : nodeNameO id with
          | some fn =>
              obtain rfl := nodeNameO_shape hid
              rcases isFunctionInit_shape hfi with ⟨cs, rfl⟩ | ⟨cs, rfl⟩ <;>
                simp [nodeNameO, isFunctionInit, traverseFnBody, traverseList_lp cs,
                      registerFunction_loops, atDepth, cnt, cntO, cntL, cadd] <;>
                try omega
          | none =>
              simp [hid, hfi, traverseOpt_lp init, traverseOpt_lp id, atDepth, cnt, cadd]
              omega
  | .arrowFunctionExpression cs, d, cur, s => by
      simp [traverse, traverseList_lp cs, atDepth, cnt]
  | .functionExpression cs, d, cur, s => by
      simp [traverse, traverseList_lp cs, atDepth, cnt]
  | .arrayPattern es, d, cur, s => by
      simp [traverse, traverseList_lp es, atDepth, cnt]
  | .jsxElement o r, d, cur, s => by
      simp [traverse, traverseList_lp r, traverseOpt_lp o, visitJSXName_loops, atDepth,
            cnt, cadd]
      omega
  | .jsxOpeningElement nm attrs, d, cur, s => by
      simp [traverse, traverseList_lp attrs, traverseOpt_lp nm, visitJSXName_loops,
            atDepth, cnt, cadd]
      omega
  | .jsxAttribute nm v, d, cur, s => by
      simp only [traverse]
      split_ifs <;>
        simp [traverseOpt_lp v, traverseOpt_lp nm, atDepth, cnt, cadd] <;> omega
  | .callExpression c args, d, cur, s => by
      simp only [traverse]
      split_ifs <;>
        simp [traverseList_lp args, traverseOpt_lp c, visitCall_loops, atDepth, cnt,
              cadd] <;>
        omega
  | .importDeclaration src sp rest, d, cur, s => by
      simp [traverse, traverseList_lp rest, visitImport_loops, atDepth, cnt]
  | .exportDeclaration decl rest, d, cur, s => by
      simp [traverse, traverseList_lp rest, traverseOpt_lp decl, visitExport_loops,
            atDepth, cnt, cadd]
      omega
  | .logicalExpression op cs, d, cur, s => by
      simp only [traverse]
      split_ifs <;> simp [traverseList_lp cs, atDepth, cnt, cadd] <;> omega
  | .stmtNode ty cs, d, cur, s => by
      simp only [traverse, cnt]
      split_ifs <;> simp [traverseList_lp cs, atDepth, cadd] <;> omega
theorem traverseOpt_lp : ∀ (n : Option JNode) (d : Nat) (cur : Option String) (s : TState),
    (traverseOpt n d cur s).loops = s.loops + (cntO n).lp
  | none, d, cur, s => by simp [traverseOpt, cntO]
  | some n, d, cur, s => by simp [traverseOpt, cntO, traverse_lp n]
theorem traverseList_lp : ∀ (l : List JNode) (d : Nat) (cur : Option String) (s : TState),
    (traverseList l d cur s).loops = s.loops + (cntL l).lp
  | [], d, cur, s => by simp [traverseList, cntL]
  | c :: cs, d, cur, s => by
      simp [traverseList, cntL, traverseList_lp cs, traverse_lp c, cadd]
      omega
end

/-! ### Cyclomatic-complexity bookkeeping of the walk -/

mutual
theorem traverse_ccm : ∀ (n : JNode) (d : Nat) (cur : Option String) (s : TState),
    (traverse n d cur s).cc = s.cc + (cnt n).br + (cnt n).lp + (cnt n).lg
  | .identifier _, d, cur, s => by simp [traverse, cnt, atDepth]
  | .stringLiteral _, d, cur, s => by simp [traverse, cnt, atDepth]
  | .numericLiteral _, d, cur, s => by simp [traverse, cnt, atDepth]
  | .booleanLiteral _, d, cur, s => by simp [traverse, cnt, atDepth]
  | .nullLiteral, d, cur, s => by simp [traverse, cnt, atDepth]
  | .functionDeclaration id cs, d, cur, s => by
      simp only [traverse]
      cases hid : nodeNameO id with
      | some fn =>
          obtain rfl := nodeNameO_shape hid
          simp [nodeNameO, traverseList_ccm cs, registerFunction_cc, atDepth,
                cnt, cntO, cadd]
          try omega
      | none =>
          simp [hid, traverseList_ccm cs, traverseOpt_ccm id, atDepth, cnt, cadd]
          omega
  | .variableDeclarator id init, d, cur, s => by
      simp only [traverse]
      cases hfi : isFunctionInit init with
      | false =>
          cases hid : nodeNameO id <;>
            simp [hid, hfi, traverseOpt_ccm init, traverseOpt_ccm id, atDepth, cnt, cadd] <;>
            omega
      | true =>
          cases hid : nodeNameO id with
          | some fn =>
              obtain rfl := nodeNameO_shape hid
              rcases isFunctionInit_shape hfi with ⟨cs, rfl⟩ | ⟨cs, rfl⟩ <;>
                simp [nodeNameO, isFunctionInit, traverseFnBody, traverseList_ccm cs,
                      registerFunction_cc, atDepth, cnt, cntO, cntL, cadd] <;>
                try omega
          | none =>
              simp [hid, hfi, traverseOpt_ccm init, traverseOpt_ccm id, atDepth, cnt, cadd]
              omega
  | .arrowFunctionExpression cs, d, cur, s => by
      simp [traverse, traverseList_ccm cs, atDepth, cnt]
  | .functionExpression cs, d, cur, s => by
      simp [traverse, traverseList_ccm cs, atDepth, cnt]
  | .arrayPattern es, d, cur, s => by
      simp [traverse, traverseList_ccm es, atDepth, cnt]
  | .jsxElement o r, d, cur, s => by
      simp [traverse, traverseList_ccm r, traverseOpt_ccm o, visitJSXName_cc, atDepth,
            cnt, cadd]
      omega
  | .jsxOpeningElement nm attrs, d, cur, s => by
      simp [traverse, traverseList_ccm attrs, traverseOpt_ccm nm, visitJSXName_cc,
            atDepth, cnt, cadd]
      omega
  | .jsxAttribute nm v, d, cur, s => by
      simp only [traverse]
      split_ifs <;>
        simp [traverseOpt_ccm v, traverseOpt_ccm nm, atDepth, cnt, cadd] <;> omega
  | .callExpression c args, d, cur, s => by
      simp only [traverse]
      split_ifs <;>
        simp [traverseList_ccm args, traverseOpt_ccm c, visitCall_cc, atDepth, cnt,
              cadd] <;>
        omega
  | .importDeclaration src sp rest, d, cur, s => by
      simp [traverse, traverseList_ccm rest, visitImport_cc, atDepth, cnt]
  | .exportDeclaration decl rest, d, cur, s => by
      simp [traverse, traverseList_ccm rest, traverseOpt_ccm decl, visitExport_cc,
            atDepth, cnt, cadd]
      omega
  | .logicalExpression op cs, d, cur, s => by
      simp only [traverse, cnt]
      split_ifs <;> simp [traverseList_ccm cs, atDepth, cadd] <;> omega
  | .stmtNode ty cs, d, cur, s => by
      simp only [traverse, cnt]
      split_ifs <;> simp [traverseList_ccm cs, atDepth, cadd] <;> omega
theorem traverseOpt_ccm : ∀ (n : Option JNode) (d : Nat) (cur : Option String) (s : TState),
    (traverseOpt n d cur s).cc = s.cc + (cntO n).br + (cntO n).lp + (cntO n).lg
  | none, d, cur, s => by simp [traverseOpt, cntO]
  | some n, d, cur, s => by simp [traverseOpt, cntO, traverse_ccm n]
theorem traverseList_ccm : ∀ (l : List JNode) (d : Nat) (cur : Option String) (s : TState),
    (traverseList l d cur s).cc = s.cc + (cntL l).br + (cntL l).lp + (cntL l).lg
  | [], d, cur, s => by simp [traverseList, cntL]
  | c :: cs, d, cur, s => by
      simp [traverseList, cntL, traverseList_ccm cs, traverse_ccm c, cadd]
      omega
end


/-! ### Claim C1: totality and error-record shape of analyze -/

/-- C1: for every source text and filename, `analyzeCode` returns a
well-formed `AnalysisRecord` and never throws outward: when parsing
fails, the result is an error record carrying exactly the filename, the
line count, the failure message and the analysis duration, with none of
the analytical fields (which exist only on success records); no record is
both a success record and an error record. -/
theorem claim_C1 (parse : String → Except String JNode) (analysisTime code filename : String) :
    ((∃ a, analyzeCode parse analysisTime code filename = .success a) ∨
      (∃ e, analyzeCode parse analysisTime code filename = .failure e)) ∧
    (∀ msg, parse code = .error msg →
      analyzeCode parse analysisTime code filename =
        .failure ⟨filename, msg, locOf code, analysisTime⟩) ∧
    (∀ ast, parse code = .ok ast →
      analyzeCode parse analysisTime code filename =
        .success (buildAnalysis ast filename (locOf code) analysisTime)) ∧
    (∀ a e, ¬(analyzeCode parse analysisTime code filename = .success a ∧
              analyzeCode parse analysisTime code filename = .failure e)) := by
  refine ⟨?_, ?_, ?_, ?_⟩
  · cases hp : parse code with
    | error msg =>
        exact Or.inr ⟨⟨filename, msg, locOf code, analysisTime⟩, by simp [analyzeCode, hp]⟩
    | ok ast =>
        exact Or.inl ⟨buildAnalysis ast filename (locOf code) analysisTime,
          by simp [analyzeCode, hp]⟩
  · intro msg hmsg
    simp [analyzeCode, hmsg]
  · intro ast hast
    simp [analyzeCode, hast]
  · intro a e h
    rcases h with ⟨h1, h2⟩
    rw [h1] at h2
    exact AnalysisRecord.noConfusion h2

/-- Witness for C1 at a concretely failing parse. -/
theorem claim_C1_witness :
    parseFailing "const x =" = Except.error "Unexpected token (1:0)" ∧
      analyzeCode parseFailing "0.01" "const x =" "bad.js" =
        .failure ⟨"bad.js", "Unexpected token (1:0)", locOf "const x =", "0.01"⟩ :=
  ⟨rfl, (claim_C1 parseFailing "0.01" "const x =" "bad.js").2.1 _ rfl⟩

/-! ### Claim C2: cyclomatic complexity bookkeeping -/

/-- C2: for every successfully analyzed file, the record's branch and
loop counters are the counts of branching/looping node kinds in the AST,
the final cyclomatic complexity equals `1 + branchCount + loopCount +
(number of logical and/or expressions in the AST)`, and consequently it
is at least 1. -/
theorem claim_C2 (parse : String → Except String JNode) (analysisTime code filename : String)
    (ast : JNode) (h : parse code = .ok ast) (a : Analysis)
    (ha : analyzeCode parse analysisTime code filename = .success a) :
    a.branches = (cnt ast).br ∧ a.loops = (cnt ast).lp ∧
      a.cyclomaticComplexity = 1 + a.branches + a.loops + (cnt ast).lg ∧
      1 ≤ a.cyclomaticComplexity := by
  have hb : a = buildAnalysis ast filename (locOf code) analysisTime := by
    simp [analyzeCode, h] at ha
    exact ha.symm
  subst hb
  simp [buildAnalysis, traverse_br ast, traverse_lp ast, traverse_ccm ast, initState]
  omega

/-- Witness for C2 at a concrete file with one branch, one loop and one
logical expression. -/
theorem claim_C2_witness :
    parseCC "x" = Except.ok ccAst ∧
      ((buildAnalysis ccAst "f.js" (locOf "x") "0.00").cyclomaticComplexity =
        1 + (buildAnalysis ccAst "f.js" (locOf "x") "0.00").branches +
          (buildAnalysis ccAst "f.js" (locOf "x") "0.00").loops + (cnt ccAst).lg) :=
  ⟨rfl, (claim_C2 parseCC "0.00" "x" "f.js" ccAst rfl _ rfl).2.2.1⟩

/-! ### Claim C3: quality score formula -/

/-- C3: for every analyzed record the quality score is 100 minus
`min(30, 2 CC)`, minus `min(15, maxDepth)`, minus 10 per issue, minus 10
when the line count exceeds 300 and another 10 when it exceeds 500, plus
5 when the record has at least one hook and at least one component, the
result clamped to an integer in [0, 100]; a record with a parse error
scores 0 unconditionally. -/
theorem claim_C3 (r : AnalysisRecord) :
    calculateQualityScore r = qualityScoreSpec r ∧
      0 ≤ calculateQualityScore r ∧ calculateQualityScore r ≤ 100 ∧
      (isError r = true → calculateQualityScore r = 0) := by
  rcases r with a | e
  · refine ⟨?_, ?_, ?_, ?_⟩
    · simp only [calculateQualityScore, qualityScoreSpec, gt_iff_lt,
        Bool.and_eq_true, decide_eq_true_eq, ← List.length_pos]
      split_ifs <;> omega
    · simp only [calculateQualityScore]
      split_ifs <;> omega
    · simp only [calculateQualityScore]
      split_ifs <;> omega
    · intro h
      simp [isError] at h
  · simp [calculateQualityScore, qualityScoreSpec, isError]

/-- Witness for C3: an error record scores 0, and a concrete success
record matches the spec formula. -/
theorem claim_C3_witness :
    calculateQualityScore (.failure ⟨"a.js", "boom", 7, "0.00"⟩) = 0 ∧
      calculateQualityScore (.success (buildAnalysis ccAst "f.js" 1 "0.00")) =
        qualityScoreSpec (.success (buildAnalysis ccAst "f.js" 1 "0.00")) :=
  ⟨(claim_C3 (.failure ⟨"a.js", "boom", 7, "0.00"⟩)).2.2.2 rfl,
   (claim_C3 (.success (buildAnalysis ccAst "f.js" 1 "0.00"))).1⟩

/-! ### Claim C4: maintainability index -/

theorem miRound_mono {x y : ℝ} (h : x ≤ y) : round x ≤ round y := by
  rw [round_eq, round_eq]
  exact Int.floor_mono (by linarith)

theorem round_hundred : round (100 : ℝ) = 100 := by
  have h : ((100 : ℤ) : ℝ) = (100 : ℝ) := by norm_num
  rw [← h, round_intCast]

/-- Clamp-then-round (the source order) agrees with round-then-clamp (the
claim order). -/
theorem roundClamp (x : ℝ) : round (max 0 (min 100 x)) = max 0 (min 100 (round x)) := by
  rcases le_total x 0 with hx | hx
  · have h1 : min (100 : ℝ) x = x := min_eq_right (by linarith)
    have h2 : max (0 : ℝ) x = 0 := max_eq_left hx
    rw [h1, h2, round_zero]
    have h3 : round x ≤ 0 := by
      have := miRound_mono hx
      rwa [round_zero] at this
    omega
  · rcases le_total 100 x with hx2 | hx2
    · have h1 : min (100 : ℝ) x = 100 := min_eq_left hx2
      rw [h1]
      have h2 : max (0 : ℝ) (100 : ℝ) = 100 := by norm_num
      rw [h2, round_hundred]
      have h3 : 100 ≤ round x := by
        have := miRound_mono hx2
        rwa [round_hundred] at this
      omega
    · have h1 : min (100 : ℝ) x = x := min_eq_right hx2
      have h2 : max (0 : ℝ) x = x := max_eq_right hx
      rw [h1, h2]
      have hr0 : 0 ≤ round x := by
        have := miRound_mono hx
        rwa [round_zero] at this
      have hr100 : round x ≤ 100 := by
        have := miRound_mono hx2
        rwa [round_hundred] at this
      omega

/-- C4: for every successfully analyzed file the maintainability index
equals `clamp(0, 100, round(171 − 5.2 ln(LOC+1) − 0.23 CC −
16.2 ln(LOC+1)))`, both logarithms applied to the same `LOC + 1` operand,
and is therefore an integer in [0, 100]. -/
theorem claim_C4 (parse : String → Except String JNode) (analysisTime code filename : String)
    (ast : JNode) (h : parse code = .ok ast) (a : Analysis)
    (ha : analyzeCode parse analysisTime code filename = .success a) :
    maintainabilityIndex a = miSpecValue a.loc a.cyclomaticComplexity ∧
      maintainabilityIndex a =
        max 0 (min 100 (round (171 - 5.2 * Real.log ((a.loc : ℝ) + 1)
          - 0.23 * (a.cyclomaticComplexity : ℝ) - 16.2 * Real.log ((a.loc : ℝ) + 1)))) ∧
      0 ≤ maintainabilityIndex a ∧ maintainabilityIndex a ≤ 100 := by
  have he : maintainabilityIndex a = miSpecValue a.loc a.cyclomaticComplexity := by
    unfold maintainabilityIndex miSpecValue
    exact roundClamp _
  refine ⟨he, ?_, ?_, ?_⟩
  · rw [he]
    unfold miSpecValue miRaw
    rfl
  · rw [he]
    unfold miSpecValue
    omega
  · rw [he]
    unfold miSpecValue
    omega

/-- Witness for C4 at a concrete successful parse. -/
theorem claim_C4_witness :
    parseCC "a" = Except.ok ccAst ∧
      0 ≤ maintainabilityIndex (buildAnalysis ccAst "f.js" (locOf "a") "0.00") ∧
      maintainabilityIndex (buildAnalysis ccAst "f.js" (locOf "a") "0.00") ≤ 100 :=
  ⟨rfl, (claim_C4 parseCC "0.00" "a" "f.js" ccAst rfl _ rfl).2.2.1,
    (claim_C4 parseCC "0.00" "a" "f.js" ccAst rfl _ rfl).2.2.2⟩


/-! ### Dependency-map invariants -/

theorem registerFunction_fd (fn : String) (s : TState) :
    (registerFunction fn s).functionDependencies = ensureKey fn s.functionDependencies := by
  simp only [registerFunction]
  split_ifs <;> rfl

theorem visitExport_fd (decl : Option JNode) (s : TState) :
    (visitExport decl s).functionDependencies = s.functionDependencies := by
  unfold visitExport
  rcases h : exportNameOf decl with _ | nm <;> simp [h]

theorem mem_setAssoc {α : Type} {q : String × α} {m : List (String × α)} {k : String} {v : α}
    (h : q ∈ setAssoc m k v) : q = (k, v) ∨ q ∈ m := by
  induction m with
  | nil => simpa [setAssoc] using h
  | cons p rest ih =>
      obtain ⟨k', v'⟩ := p
      simp only [setAssoc] at h
      split_ifs at h with hk
      · rcases List.mem_cons.mp h with h1 | h1
        · exact Or.inl h1
        · exact Or.inr (List.mem_cons_of_mem _ h1)
      · rcases List.mem_cons.mp h with h1 | h1
        · exact Or.inr (h1 ▸ List.mem_cons_self _ _)
        · rcases ih h1 with h2 | h2
          · exact Or.inl h2
          · exact Or.inr (List.mem_cons_of_mem _ h2)

theorem targetsOK_ensureKey {m : DepsMap} (f : String) (h : TargetsOK m) :
    TargetsOK (ensureKey f m) := by
  intro p hp q hq
  unfold ensureKey at hp
  split_ifs at hp
  · exact h p hp q hq
  · rcases List.mem_append.mp hp with h1 | h1
    · exact h p h1 q hq
    · simp at h1
      subst h1
      simp at hq

theorem targetsOK_bumpDep {m : DepsMap} {t : String} (f : String)
    (h : TargetsOK m) (ht : isCapitalized t = true ∨ builtins.contains t = false) :
    TargetsOK (bumpDep f t m) := by
  intro p hp q hq
  unfold bumpDep at hp
  rcases List.mem_map.mp hp with ⟨p0, hp0, rfl⟩
  have h' := targetsOK_ensureKey f h
  by_cases hf : p0.1 = f
  · simp only [if_pos hf] at hq
    unfold bumpInner at hq
    rcases mem_setAssoc hq with rfl | hq2
    · exact ht
    · exact h' p0 hp0 q hq2
  · simp only [if_neg hf] at hq
    exact h' p0 hp0 q hq

theorem targetsOK_registerFunction (fn : String) (s : TState)
    (h : TargetsOK s.functionDependencies) :
    TargetsOK (registerFunction fn s).functionDependencies := by
  rw [registerFunction_fd]
  exact targetsOK_ensureKey fn h

theorem targetsOK_visitJSXName (cur en : Option String) (s : TState)
    (h : TargetsOK s.functionDependencies) :
    TargetsOK (visitJSXName cur en s).functionDependencies := by
  rcases en with _ | e <;> rcases cur with _ | f <;> try exact h
  simp only [visitJSXName]
  split_ifs with hcap
  · exact targetsOK_bumpDep f h (Or.inl hcap)
  · exact h

theorem targetsOK_visitCall (cur cn : Option String) (s : TState)
    (h : TargetsOK s.functionDependencies) :
    TargetsOK (visitCall cur cn s).functionDependencies := by
  rcases cn with _ | c
  · exact h
  · rcases cur with _ | f
    · simp only [visitCall]
      split_ifs <;> exact h
    · simp only [visitCall]
      split_ifs
      all_goals try exact h
      all_goals rename_i hne hand hu
      all_goals exact targetsOK_bumpDep f h (Or.inr (by simpa using hand.1))

theorem targetsOK_visitExport (decl : Option JNode) (s : TState)
    (h : TargetsOK s.functionDependencies) :
    TargetsOK (visitExport decl s).functionDependencies := by
  rw [visitExport_fd]
  exact h

mutual
theorem traverse_targets : ∀ (n : JNode) (d : Nat) (cur : Option String) (s : TState),
    TargetsOK s.functionDependencies → TargetsOK (traverse n d cur s).functionDependencies
  | .identifier _, d, cur, s => fun h => by simp only [traverse]; exact h
  | .stringLiteral _, d, cur, s => fun h => by simp only [traverse]; exact h
  | .numericLiteral _, d, cur, s => fun h => by simp only [traverse]; exact h
  | .booleanLiteral _, d, cur, s => fun h => by simp only [traverse]; exact h
  | .nullLiteral, d, cur, s => fun h => by simp only [traverse]; exact h
  | .functionDeclaration id cs, d, cur, s => fun h => by
      simp only [traverse]
      cases hid : nodeNameO id with
      | some fn =>
          exact traverseList_targets cs _ _ _ (targetsOK_registerFunction fn _ h)
      | none =>
          exact traverseList_targets cs _ _ _ (traverseOpt_targets id _ _ _ h)
  | .variableDeclarator id init, d, cur, s => fun h => by
      simp only [traverse]
      cases hfi : isFunctionInit init with
      | false =>
          simp only [Bool.false_eq_true, if_false]
          cases hid : nodeNameO id with
          | some v => exact traverseOpt_targets init _ _ _ (traverseOpt_targets id _ _ _ h)
          | none => exact traverseOpt_targets init _ _ _ (traverseOpt_targets id _ _ _ h)
      | true =>
          simp only [if_true]
          cases hid : nodeNameO id with
          | some fn =>
              rcases isFunctionInit_shape hfi with ⟨cs, rfl⟩ | ⟨cs, rfl⟩ <;>
                simp only [traverseFnBody] <;>
                exact traverseList_targets cs _ _ _ (targetsOK_registerFunction fn _ h)
          | none =>
              exact traverseOpt_targets init _ _ _ (traverseOpt_targets id _ _ _ h)
  | .arrowFunctionExpression cs, d, cur, s => fun h => by
      simp only [traverse]
      exact traverseList_targets cs _ _ _ h
  | .functionExpression cs, d, cur, s => fun h => by
      simp only [traverse]
      exact traverseList_targets cs _ _ _ h
  | .arrayPattern es, d, cur, s => fun h => by
      simp only [traverse]
      exact traverseList_targets es _ _ _ h
  | .jsxElement o r, d, cur, s => fun h => by
      simp only [traverse]
      exact traverseList_targets r _ _ _
        (traverseOpt_targets o _ _ _ (targetsOK_visitJSXName cur _ _ h))
  | .jsxOpeningElement nm attrs, d, cur, s => fun h => by
      simp only [traverse]
      exact traverseList_targets attrs _ _ _
        (traverseOpt_targets nm _ _ _ (targetsOK_visitJSXName cur _ _ h))
  | .jsxAttribute nm v, d, cur, s => fun h => by
      simp only [traverse]
      split_ifs <;>
        exact traverseOpt_targets v _ _ _ (traverseOpt_targets nm _ _ _ h)
  | .callExpression c args, d, cur, s => fun h => by
      simp only [traverse]
      split_ifs <;>
        exact traverseList_targets args _ _ _
          (traverseOpt_targets c _ _ _ (targetsOK_visitCall cur _ _ h))
  | .importDeclaration src sp rest, d, cur, s => fun h => by
      simp only [traverse]
      exact traverseList_targets rest _ _ _ h
  | .exportDeclaration decl rest, d, cur, s => fun h => by
      simp only [traverse]
      exact traverseList_targets rest _ _ _
        (traverseOpt_targets decl _ _ _ (targetsOK_visitExport decl _ h))
  | .logicalExpression op cs, d, cur, s => fun h => by
      simp only [traverse]
      split_ifs <;> exact traverseList_targets cs _ _ _ h
  | .stmtNode ty cs, d, cur, s => fun h => by
      simp only [traverse]
      split_ifs <;> exact traverseList_targets cs _ _ _ h
theorem traverseOpt_targets : ∀ (n : Option JNode) (d : Nat) (cur : Option String) (s : TState),
    TargetsOK s.functionDependencies → TargetsOK (traverseOpt n d cur s).functionDependencies
  | none, d, cur, s => fun h => h
  | some n, d, cur, s => fun h => by
      simp only [traverseOpt]
      exact traverse_targets n _ _ _ h
theorem traverseList_targets : ∀ (l : List JNode) (d : Nat) (cur : Option String) (s : TState),
    TargetsOK s.functionDependencies → TargetsOK (traverseList l d cur s).functionDependencies
  | [], d, cur, s => fun h => h
  | c :: cs, d, cur, s => fun h => by
      simp only [traverseList]
      exact traverseList_targets cs _ _ _ (traverse_targets c _ _ _ h)
end

/-! ### Membership in the finalised dependency list -/

theorem mem_finalizeInner {e : DepEdge} {f : String} {ts : List (String × Nat)}
    {defined : List String} {types : List (String × String)}
    (h : e ∈ finalizeInner f ts defined types) :
    (defined.contains e.toName = true ∨ isCapitalized e.toName = true) ∧
      ∃ q ∈ ts, e.toName = q.1 := by
  induction ts with
  | nil => simp [finalizeInner] at h
  | cons q0 rest ih =>
      obtain ⟨t, c⟩ := q0
      simp only [finalizeInner] at h
      rcases List.mem_append.mp h with h1 | h1
      · by_cases hk : (defined.contains t || isCapitalized t) = true
        · rw [if_pos hk] at h1
          simp only [List.mem_singleton] at h1
          subst h1
          refine ⟨?_, ⟨(t, c), List.mem_cons_self _ _, rfl⟩⟩
          simpa using hk
        · rw [if_neg hk] at h1
          simp at h1
      · obtain ⟨hd, q, hq, he⟩ := ih h1
        exact ⟨hd, q, List.mem_cons_of_mem _ hq, he⟩

theorem mem_finalizeDeps {e : DepEdge} {fd : DepsMap}
    {defined : List String} {types : List (String × String)}
    (h : e ∈ finalizeDeps fd defined types) :
    (defined.contains e.toName = true ∨ isCapitalized e.toName = true) ∧
      ∃ p ∈ fd, ∃ q ∈ p.2, e.toName = q.1 := by
  induction fd with
  | nil => simp [finalizeDeps] at h
  | cons p0 rest ih =>
      obtain ⟨f, ts⟩ := p0
      simp only [finalizeDeps] at h
      rcases List.mem_append.mp h with h1 | h1
      · obtain ⟨hd, q, hq, he⟩ := mem_finalizeInner h1
        exact ⟨hd, ⟨(f, ts), List.mem_cons_self _ _, q, hq, he⟩⟩
      · obtain ⟨hd, p, hp, hrest⟩ := ih h1
        exact ⟨hd, ⟨p, List.mem_cons_of_mem _ hp, hrest⟩⟩

/-! ### Claim C5: dependency-edge gating -/

/-- C5: a call expression contributes a dependency entry only when the
callee is a bare identifier different from the current enclosing scope,
the walk is inside a function scope, and the name is neither a built-in,
a hook call, nor a setter call; after the walk an edge is retained only
when its target is declared in the file or capitalized, and a call to a
built-in such as `fetch` never produces a dependency edge. -/
theorem claim_C5 :
    (∀ cur cn s, (visitCall cur cn s).functionDependencies ≠ s.functionDependencies →
      ∃ f c, cur = some f ∧ cn = some c ∧ c ≠ f ∧ builtins.contains c = false ∧
        strStartsWith c "use" = false ∧ isSetState c = false) ∧
    (∀ c nm, calleeNameOf c = some nm → c = some (.identifier nm)) ∧
    (∀ fd defined types, ∀ e ∈ finalizeDeps fd defined types,
      defined.contains e.toName = true ∨ isCapitalized e.toName = true) ∧
    (∀ ast filename loc time, ∀ e ∈ (buildAnalysis ast filename loc time).dependencies,
      e.toName ≠ "fetch") := by
  refine ⟨?_, ?_, ?_, ?_⟩
  · intro cur cn s h
    rcases cn with _ | c
    · exact absurd rfl h
    · rcases cur with _ | f
      · refine absurd ?_ h
        simp only [visitCall]
        split_ifs <;> rfl
      · simp only [visitCall] at h
        split_ifs at h
        all_goals try exact absurd rfl h
        all_goals rename_i hne hand hu
        all_goals exact ⟨f, c, rfl, rfl, hne, by simpa using hand.1, by simpa using hand.2.1,
          by simpa using hand.2.2⟩
  · intro c nm h
    rcases c with _ | n
    · simp [calleeNameOf] at h
    · cases n <;> simp_all [calleeNameOf]
  · intro fd defined types e he
    exact (mem_finalizeDeps he).1
  · intro ast filename loc time e he
    have h0 : TargetsOK (traverse ast 0 none initState).functionDependencies := by
      refine traverse_targets ast 0 none initState ?_
      intro p hp q hq
      simp [initState] at hp
    simp only [buildAnalysis] at he
    obtain ⟨-, p, hp, q, hq, heq⟩ := mem_finalizeDeps he
    intro hfetch
    have hq1 : q.1 = "fetch" := heq.symm.trans hfetch
    rcases h0 p hp q hq with hcap | hnb
    · rw [hq1] at hcap
      exact absurd hcap (by decide)
    · rw [hq1] at hnb
      exact absurd hnb (by decide)

/-- Witness for C5: a recorded dependency bump implies all call-site
conditions, at a concrete changed state. -/
theorem claim_C5_witness :
    ∃ f c, (some "Alpha" : Option String) = some f ∧ (some "beta" : Option String) = some c ∧
      c ≠ f ∧ builtins.contains c = false ∧ strStartsWith c "use" = false ∧
      isSetState c = false :=
  (claim_C5).1 (some "Alpha") (some "beta") initState (by decide)

/-! ### Claim C8 (corrected): top-level usages are dropped -/

set_option maxHeartbeats 1600000 in
/-- C8 as stated is false on the code: the example input `topAst`
declares `foo` and calls it at top level, yet the finished analysis has
no dependency edge at all, in particular none from a sentinel
`"Unknown"` scope. -/
theorem claim_C8_counterexample :
    (buildAnalysis topAst "f.js" 1 "0.00").dependencies = [] ∧
      ¬ ∃ e ∈ (buildAnalysis topAst "f.js" 1 "0.00").dependencies,
          e.fromName = "Unknown" := by
  constructor <;> decide

set_option maxHeartbeats 1600000 in
/-- C8 (amended): calls and JSX usages in top-level statements (outside
any function-like declaration) are dropped, not attributed to a sentinel
scope: with no enclosing function the call and JSX handlers leave the
dependency map unchanged, and the sample top-level call to a locally
declared function yields no dependency edge. -/
theorem claim_C8 :
    (∀ cn s, (visitCall none cn s).functionDependencies = s.functionDependencies) ∧
    (∀ en s, visitJSXName none en s = s) ∧
    (buildAnalysis topAst "f.js" 1 "0.00").dependencies = [] ∧
    (buildAnalysis topAst "f.js" 1 "0.00").functions = ["foo"] := by
  refine ⟨?_, ?_, by decide, by decide⟩
  · intro cn s
    rcases cn with _ | c
    · rfl
    · simp only [visitCall]
      split_ifs <;> rfl
  · intro en s
    rcases en with _ | e <;> rfl

/-! ### Claim C10 (corrected): self edges -/

set_option maxHeartbeats 1600000 in
/-- C10 as stated is false on the code: the component `Foo` of `selfAst`
renders itself through JSX, and the retained dependency list contains the
self edge `Foo -> Foo` (bumped once for the `JSXElement` and once for its
`JSXOpeningElement`). -/
theorem claim_C10_counterexample :
    ({ fromName := "Foo", toName := "Foo", count := 2, fromType := "component",
        toType := "component" } : DepEdge) ∈
        (buildAnalysis selfAst "f.jsx" 1 "0.00").dependencies ∧
      ∃ e ∈ (buildAnalysis selfAst "f.jsx" 1 "0.00").dependencies,
        e.fromName = e.toName := by
  constructor <;> decide

/-- C10 (amended): at a call site a callee identifier equal to the
current enclosing scope is excluded, so a direct recursive call never
contributes a dependency entry; any contribution is a bump for some
callee different from the scope.  (Self edges can still arise from JSX
self-rendering, as the counterexample shows.) -/
theorem claim_C10 (cur cn : Option String) (s : TState) :
    (visitCall cur cn s).functionDependencies = s.functionDependencies ∨
      ∃ f c, cur = some f ∧ cn = some c ∧ c ≠ f ∧
        (visitCall cur cn s).functionDependencies = bumpDep f c s.functionDependencies := by
  rcases cn with _ | c
  · exact Or.inl rfl
  · rcases cur with _ | f
    · refine Or.inl ?_
      simp only [visitCall]
      split_ifs <;> rfl
    · simp only [visitCall]
      split_ifs
      all_goals try exact Or.inl rfl
      all_goals rename_i hne hand hu
      all_goals exact Or.inr ⟨f, c, rfl, rfl, hne, rfl⟩


/-! ### Claim C6: declaration classification -/

theorem lookup_setAssoc {α : Type} (m : List (String × α)) (k : String) (v : α) :
    (setAssoc m k v).lookup k = some v := by
  induction m with
  | nil => simp [setAssoc, List.lookup]
  | cons p rest ih =>
      obtain ⟨k', v'⟩ := p
      by_cases hk : k' = k
      · simp [setAssoc, hk, List.lookup]
      · have hb : (k == k') = false := beq_eq_false_iff_ne.mpr (Ne.symm hk)
        simp [setAssoc, hk, List.lookup, hb, ih]

/-- C6: every named function-like declaration is classified once, in
first-match order: a capitalized name is a component, otherwise a
`handle`/`on`-prefixed name followed by a capital is a handler, otherwise
a helper; a capitalized name is never added to the handler set, so the
component check always wins. -/
theorem claim_C6 (fn : String) (s : TState) :
    ((registerFunction fn s).functionTypes.lookup fn =
        some (if isCapitalized fn then "component"
              else if isHandlerShaped fn then "handler" else "helper")) ∧
      (isCapitalized fn = true →
        (registerFunction fn s).components = s.components ++ [fn] ∧
        (registerFunction fn s).eventHandlers = s.eventHandlers) ∧
      (isCapitalized fn = false → isHandlerShaped fn = true →
        (registerFunction fn s).eventHandlers = s.eventHandlers ++ [fn] ∧
        (registerFunction fn s).components = s.components) ∧
      (isCapitalized fn = false → isHandlerShaped fn = false →
        (registerFunction fn s).eventHandlers = s.eventHandlers ∧
        (registerFunction fn s).components = s.components) := by
  simp only [registerFunction]
  split_ifs with hc hh <;>
    refine ⟨?_, ?_, ?_, ?_⟩ <;>
    simp_all [lookup_setAssoc]

/-- Witness for C6: the capitalized name `OnFoo` is classified as a
component and never as a handler. -/
theorem claim_C6_witness :
    (registerFunction "OnFoo" initState).functionTypes.lookup "OnFoo" = some "component" ∧
      (registerFunction "OnFoo" initState).eventHandlers = [] ∧
      (registerFunction "OnFoo" initState).components = ["OnFoo"] := by
  obtain ⟨h1, h2, h3, h4⟩ := claim_C6 "OnFoo" initState
  have hc : isCapitalized "OnFoo" = true := by decide
  obtain ⟨hcomp, hev⟩ := h2 hc
  exact ⟨by simpa [hc] using h1, by simpa [initState] using hev,
    by simpa [initState] using hcomp⟩

/-! ### Claim C7: state units and transitions (spec-modelled) -/

theorem monoExt_refl (m : StateModel) : MonoExt m m :=
  ⟨⟨[], by simp⟩, ⟨[], by simp⟩⟩

theorem monoExt_trans {a b c : StateModel} (h1 : MonoExt a b) (h2 : MonoExt b c) :
    MonoExt a c := by
  obtain ⟨⟨t1, ht1⟩, ⟨u1, hu1⟩⟩ := h1
  obtain ⟨⟨t2, ht2⟩, ⟨u2, hu2⟩⟩ := h2
  exact ⟨⟨t1 ++ t2, by simp [ht2, ht1]⟩, ⟨u1 ++ u2, by simp [hu2, hu1]⟩⟩

theorem recordTransition_mono (cur : String) (cn : Option String) (m : StateModel) :
    MonoExt m (recordTransition cur cn m) := by
  rcases cn with _ | c
  · exact monoExt_refl m
  · simp only [recordTransition]
    cases hlk : m.setterMap.lookup c with
    | some st =>
        exact ⟨⟨[], by simp⟩, ⟨[⟨st, c, cur⟩], rfl⟩⟩
    | none => exact monoExt_refl m

mutual
theorem stateWalk_mono : ∀ (n : JNode) (cur : String) (m : StateModel),
    MonoExt m (stateWalk n cur m)
  | .identifier _, cur, m => by simp only [stateWalk]; exact monoExt_refl m
  | .stringLiteral _, cur, m => by simp only [stateWalk]; exact monoExt_refl m
  | .numericLiteral _, cur, m => by simp only [stateWalk]; exact monoExt_refl m
  | .booleanLiteral _, cur, m => by simp only [stateWalk]; exact monoExt_refl m
  | .nullLiteral, cur, m => by simp only [stateWalk]; exact monoExt_refl m
  | .functionDeclaration id children, cur, m => by
      simp only [stateWalk]
      cases hid : nodeNameO id with
      | some fn => exact stateWalkL_mono children fn m
      | none =>
          exact monoExt_trans (stateWalkO_mono id cur m) (stateWalkL_mono children cur _)
  | .variableDeclarator id init, cur, m => by
      simp only [stateWalk]
      cases hus : useStateOf id init with
      | some tr =>
          obtain ⟨nm, st, a0⟩ := tr
          refine monoExt_trans ?_ (stateWalkO_mono init cur _)
          exact ⟨⟨[⟨nm, st, renderLiteral a0, cur⟩], rfl⟩, ⟨[], by simp⟩⟩
      | none =>
          cases hfi : isFunctionInit init with
          | false =>
              simp only [Bool.false_eq_true, if_false]
              exact monoExt_trans (stateWalkO_mono id cur m) (stateWalkO_mono init cur _)
          | true =>
              simp only [if_true]
              cases hid : nodeNameO id with
              | some fn =>
                  rcases isFunctionInit_shape hfi with ⟨cs, rfl⟩ | ⟨cs, rfl⟩ <;>
                    simp only [stateFnBody] <;>
                    exact stateWalkL_mono cs fn m
              | none =>
                  exact monoExt_trans (stateWalkO_mono id cur m) (stateWalkO_mono init cur _)
  | .arrowFunctionExpression cs, cur, m => by
      simp only [stateWalk]; exact stateWalkL_mono cs cur m
  | .functionExpression cs, cur, m => by
      simp only [stateWalk]; exact stateWalkL_mono cs cur m
  | .arrayPattern es, cur, m => by
      simp only [stateWalk]; exact stateWalkL_mono es cur m
  | .jsxElement o r, cur, m => by
      simp only [stateWalk]
      exact monoExt_trans (stateWalkO_mono o cur m) (stateWalkL_mono r cur _)
  | .jsxOpeningElement nm attrs, cur, m => by
      simp only [stateWalk]
      exact monoExt_trans (stateWalkO_mono nm cur m) (stateWalkL_mono attrs cur _)
  | .jsxAttribute nm v, cur, m => by
      simp only [stateWalk]
      exact monoExt_trans (stateWalkO_mono nm cur m) (stateWalkO_mono v cur _)
  | .callExpression callee args, cur, m => by
      simp only [stateWalk]
      exact monoExt_trans (recordTransition_mono cur (calleeNameOf callee) m)
        (monoExt_trans (stateWalkO_mono callee cur _) (stateWalkL_mono args cur _))
  | .importDeclaration src sp rest, cur, m => by
      simp only [stateWalk]; exact stateWalkL_mono rest cur m
  | .exportDeclaration decl rest, cur, m => by
      simp only [stateWalk]
      exact monoExt_trans (stateWalkO_mono decl cur m) (stateWalkL_mono rest cur _)
  | .logicalExpression op cs, cur, m => by
      simp only [stateWalk]; exact stateWalkL_mono cs cur m
  | .stmtNode ty cs, cur, m => by
      simp only [stateWalk]; exact stateWalkL_mono cs cur m
theorem stateWalkO_mono : ∀ (n : Option JNode) (cur : String) (m : StateModel),
    MonoExt m (stateWalkO n cur m)
  | none, cur, m => monoExt_refl m
  | some n, cur, m => by simp only [stateWalkO]; exact stateWalk_mono n cur m
theorem stateWalkL_mono : ∀ (l : List JNode) (cur : String) (m : StateModel),
    MonoExt m (stateWalkL l cur m)
  | [], cur, m => monoExt_refl m
  | c :: cs, cur, m => by
      simp only [stateWalkL]
      exact monoExt_trans (stateWalk_mono c cur m) (stateWalkL_mono cs cur _)
end

/-- C7 (spec-modelled): every two-element array destructuring initialised
by a `useState` call appends exactly one `StateUnit` carrying the state
name, the setter name, the rendered initial literal and the owning scope;
and every call whose callee identifier equals a registered setter appends
exactly one `StateTransition` referencing the registered state name. -/
theorem claim_C7 :
    (∀ id init nm st a0 cur m, useStateOf id init = some (nm, st, a0) →
      ∃ t, (stateWalk (.variableDeclarator id init) cur m).states =
          m.states ++ [⟨nm, st, renderLiteral a0, cur⟩] ++ t) ∧
    (∀ callee args cn st cur m, calleeNameOf callee = some cn →
      m.setterMap.lookup cn = some st →
      ∃ u, (stateWalk (.callExpression callee args) cur m).transitions =
          m.transitions ++ [⟨st, cn, cur⟩] ++ u) := by
  constructor
  · intro id init nm st a0 cur m h
    simp only [stateWalk, h]
    obtain ⟨⟨t, ht⟩, -⟩ := stateWalkO_mono init cur
      { m with states := m.states ++ [⟨nm, st, renderLiteral a0, cur⟩]
               setterMap := setAssoc m.setterMap st nm }
    exact ⟨t, by simp [ht]⟩
  · intro callee args cn st cur m h1 h2
    simp only [stateWalk, recordTransition, h1, h2]
    obtain ⟨-, ⟨u1, hu1⟩⟩ := stateWalkO_mono callee cur
      { m with transitions := m.transitions ++ [⟨st, cn, cur⟩] }
    obtain ⟨-, ⟨u2, hu2⟩⟩ := stateWalkL_mono args cur
      (stateWalkO callee cur
        { m with transitions := m.transitions ++ [⟨st, cn, cur⟩] })
    exact ⟨u1 ++ u2, by simp [hu2, hu1]⟩

/-- Witness for C7: the `Button` sample yields exactly one state unit and
one transition, and the transition step instantiates the claim at a
concrete registered setter. -/
theorem claim_C7_witness :
    (stateModelOf buttonAst).states = [⟨"x", "setX", "0", "Button"⟩] ∧
      (stateModelOf buttonAst).transitions = [⟨"x", "setX", "Button"⟩] ∧
      (∃ u, (stateWalk (.callExpression (some (.identifier "setX")) [])
          "Button" ⟨[], [], [("setX", "x")]⟩).transitions =
        ([] : List StateTransition) ++ [⟨"x", "setX", "Button"⟩] ++ u) := by
  refine ⟨by decide, by decide, ?_⟩
  exact (claim_C7).2 (some (.identifier "setX")) [] "setX" "x" "Button"
    ⟨[], [], [("setX", "x")]⟩ rfl rfl

/-! ### Claim C9: aggregation -/

theorem sum_filter_split (l : List AnalysisRecord) (f : AnalysisRecord → Nat) :
    (l.map f).sum =
      ((l.filter (fun r => !isError r)).map f).sum +
        ((l.filter (fun r => isError r)).map f).sum := by
  induction l with
  | nil => simp
  | cons r rest ih =>
      by_cases h : isError r = true <;> simp [h, ih] <;> omega

/-- C9: aggregation sums line counts over all records including errored
ones, sums every other metric only over the successful records, defines
the three means as 0 when there are zero successful records, and
aggregating an empty record list yields a summary with all numeric fields
0 (and empty unions) without any failure. -/
theorem claim_C9 (records : List AnalysisRecord) :
    (processSummary records).totalFiles = records.length ∧
      (processSummary records).totalLOC =
        (((records.filter (fun r => !isError r)).map recLoc).sum +
          ((records.filter (fun r => isError r)).map recLoc).sum) ∧
      (processSummary records).totalFunctions =
        ((records.filter (fun r => !isError r)).map recFunctionsLen).sum ∧
      (processSummary records).totalIssues =
        ((records.filter (fun r => !isError r)).map recIssuesLen).sum ∧
      (processSummary records).totalCBO =
        ((records.filter (fun r => !isError r)).map recCBO).sum ∧
      (processSummary records).totalWMC =
        ((records.filter (fun r => !isError r)).map recWMC).sum ∧
      ((∀ r ∈ records, isError r = true) →
        (processSummary records).avgQualityScore = 0 ∧
        (processSummary records).avgCyclomaticComplexity = 0 ∧
        (processSummary records).avgMaintainabilityIndex = 0) ∧
      (records = [] →
        processSummary records = ⟨0, 0, 0, 0, 0, 0, [], [], 0, 0, 0, 0, 0, 0⟩) := by
  refine ⟨rfl, ?_, rfl, rfl, rfl, rfl, ?_, ?_⟩
  · simpa [processSummary] using sum_filter_split records recLoc
  · intro hall
    have hv : records.filter (fun r => !isError r) = [] := by
      refine List.filter_eq_nil.mpr ?_
      intro a ha
      simp [hall a ha]
    simp [processSummary, hv]
  · intro h
    subst h
    rfl

/-- Witness for C9 at a one-element list holding only an errored record. -/
theorem claim_C9_witness :
    (processSummary [AnalysisRecord.failure ⟨"a.js", "boom", 7, "0.00"⟩]).avgQualityScore = 0 ∧
      (processSummary
        [AnalysisRecord.failure ⟨"a.js", "boom", 7, "0.00"⟩]).avgMaintainabilityIndex = 0 ∧
      (processSummary [AnalysisRecord.failure ⟨"a.js", "boom", 7, "0.00"⟩]).totalLOC = 7 := by
  obtain ⟨h1, h2, h3, h4, h5, h6, h7, h8⟩ :=
    claim_C9 [AnalysisRecord.failure ⟨"a.js", "boom", 7, "0.00"⟩]
  obtain ⟨hq, hcc, hmi⟩ := h7 (by decide)
  refine ⟨hq, hmi, ?_⟩
  rw [h2]
  decide

end ReactParse
